import Mathlib

/-!
Verification of the Scrape_EMA multi-source extraction pipeline.

This file is a shallow embedding of the four scrapers of the repository
(`app/scrapers/ema_scraper.py`, `fda_scraper_selenium.py`, `pmda_scraper.py`,
`who_scraper.py`) together with the configuration constants of
`app/config.py`, and proofs about the embedded functions.

Embedding conventions:
* Timestamps (Python `datetime` values) are modelled as `Int` instants in
  seconds; `timedelta(days=d)` is `d * 86400`.  All the properties proved
  here depend only on the ordering of instants, never on calendar fields.
* A fetched and parsed HTML document is modelled by a structure holding,
  for each configured CSS selector, the result that BeautifulSoup's
  `select_one` / `select` would produce on that document (the extracted
  strings themselves, since the Python code only ever reads stripped text
  or a `content`/`datetime` attribute from the selected elements).
* External library calls (`dateutil.parser.parse`, `datetime.strptime`,
  `urljoin`, `isoformat`) are taken as function parameters of the
  embedded definitions: the scraper logic is generic in them.  A parse
  function returning `none` models the library raising, which every call
  site wraps in `try/except`.
* `requests`/Selenium fetches are modelled as a function from URL to
  `Option page`; `none` models any fetch or parse exception, which the
  per-item `try/except` blocks of the source turn into a skipped item.
* Python functions are total here; the top-level `try/except` blocks that
  make the entry points return `[]` instead of raising are reflected by
  the embedded functions being total and returning `[]` on the
  corresponding inputs.
-/

/-! ## Configuration constants (`app/config.py`) -/

def MAX_ARTICLES_TO_PROCESS : Nat := 20

def MAX_PARAGRAPHS_PER_ARTICLE : Nat := 3

/-! ## Generic string helpers -/

/-- Python's `sub in s` substring test, on the character lists of the two
strings. -/
def strContains (s pat : String) : Bool :=
  (List.range (s.toList.length + 1)).any
    (fun i => decide (((s.toList.drop i).take pat.toList.length) = pat.toList))

/-- Python's `str.lower()` (the titles checked by the scrapers are ASCII). -/
def toLowerStr (s : String) : String :=
  String.mk (s.toList.map Char.toLower)

/-! ## Error-page title detection

`fda_scraper_selenium.py:363`, `who_scraper.py:329` and
`pmda_scraper.py:360` all test
`any(phrase in title.lower() for phrase in ['page not found', 'not available', 'error', '404'])`. -/

def errorPhrases : List String := ["page not found", "not available", "error", "404"]

def hasErrorPhrase (title : String) : Bool :=
  errorPhrases.any (fun p => strContains (toLowerStr title) p)

/-- The shared `_extract_title` loop of the FDA, WHO and PMDA scrapers:
walk the selector results in order; the first selector that matched an
element whose extracted string is non-empty and longer than 10 characters
decides the outcome — `none` if that string contains an error-page phrase,
otherwise the string itself.  Selectors that matched nothing, or whose
string is too short, are skipped. -/
def titleScan : List (Option String) → Option String
  | [] => none
  | none :: rest => titleScan rest
  | some t :: rest =>
    if t ≠ "" ∧ 10 < t.length then
      if hasErrorPhrase t then none else some t
    else titleScan rest

/-- `FDAScraperSelenium._extract_title` applied to its selector results. -/
def fdaExtractTitle (sel : List (Option String)) : Option String := titleScan sel

/-- `WHOScraper._extract_title` applied to its selector results. -/
def whoExtractTitle (sel : List (Option String)) : Option String := titleScan sel

/-- `PMDAScraper._extract_title` applied to its selector results. -/
def pmdaExtractTitle (sel : List (Option String)) : Option String := titleScan sel

/-! ## Cutoff filtering (shared shape of all four scrapers) -/

/-- `_is_within_date_range(article_date, cutoff_date)`:
`return article_date >= cutoff_date`. -/
def isWithinDateRange (articleDate cutoffDate : Int) : Bool :=
  decide (articleDate ≥ cutoffDate)

/-- `datetime.now(tz) - timedelta(days=days_back)`, in seconds. -/
def cutoffDate (now : Int) (daysBack : Int) : Int :=
  now - daysBack * 86400

/-! ## EMA scraper (`app/scrapers/ema_scraper.py`) -/

/-- One element matched by a `DATE_SELECTORS` entry: its stripped text and
its `datetime` attribute (if the attribute is present). -/
structure EmaDateElem where
  text : String
  datetimeAttr : Option String
deriving DecidableEq

/-- A fetched EMA article page, as seen through the configured selector
lists: one entry per selector of `TITLE_SELECTORS` / `DATE_SELECTORS`
(`select_one` result) and `CONTENT_SELECTORS` (`select` result), plus the
document's `<title>` text, all `<p>` texts in order, and the result the
related-documents harvester would produce for this page (the harvester's
internals are not modelled; no claim concerns them). -/
structure EmaPage where
  titleSel : List (Option String)
  titleTag : Option String
  dateSel : List (Option EmaDateElem)
  contentSel : List (List String)
  allParagraphs : List String
  relatedDocs : List String
deriving DecidableEq

/-- `EMANewsScraper._extract_title`: first matched title selector's text
(with no emptiness, length or error-phrase check), falling back to the
`<title>` tag's text. -/
def emaExtractTitle (page : EmaPage) : Option String :=
  match page.titleSel.findSome? id with
  | some t => some t
  | none => page.titleTag

/-- The date string the EMA scraper parses for one matched element: the
`datetime` attribute when present and non-empty (`if element.get('datetime'):`),
else the element's text. -/
def emaDateText (e : EmaDateElem) : String :=
  match e.datetimeAttr with
  | some a => if a = "" then e.text else a
  | none => e.text

/-- `EMANewsScraper._extract_date`: for each date selector in order, if an
element matched, parse its date string (`P` models
`dateutil.parser.parse` followed by the UTC-assumption and timezone
conversion; `none` models a parse exception, which the code logs and
skips).  If no selector yields a parseable date the code falls back to
`datetime.now(self.tz)` — it never returns `None`. -/
def emaExtractDate (P : String → Option Int) (now : Int) (page : EmaPage) : Option Int :=
  match page.dateSel.findSome? (fun oe => oe.bind (fun e => P (emaDateText e))) with
  | some t => some t
  | none => some now

/-- The paragraph list built by `EMANewsScraper._extract_content`: the
first content selector with a non-empty `select` result supplies up to
`MAX_PARAGRAPHS_PER_ARTICLE` elements, filtered to non-empty texts longer
than 50 characters; if that leaves nothing, the same cap and filter are
applied to all `<p>` elements of the document. -/
def emaContentParas (page : EmaPage) : List String :=
  let fromSel :=
    match page.contentSel.find? (fun l => !l.isEmpty) with
    | some els =>
      (els.take MAX_PARAGRAPHS_PER_ARTICLE).filter (fun t => decide (t ≠ "" ∧ 50 < t.length))
    | none => []
  if fromSel.isEmpty then
    (page.allParagraphs.take MAX_PARAGRAPHS_PER_ARTICLE).filter
      (fun t => decide (t ≠ "" ∧ 50 < t.length))
  else fromSel

/-- `EMANewsScraper._extract_content`: join the kept paragraphs with a
blank line, or emit the sentinel string. -/
def emaExtractContent (page : EmaPage) : String :=
  let ps := emaContentParas page
  if ps.isEmpty then "Content not available" else String.intercalate "\n\n" ps

/-- Keywords triggering the EMA related-documents harvester
(`ema_scraper.py:142`). -/
def emaDocKeywords : List String := ["reflection paper", "guideline", "consultation", "draft"]

/-- The record dictionary built by `EMANewsScraper._scrape_article`. -/
structure EmaArticle where
  title : String
  url : String
  published_at : Int
  published_at_iso : String
  summary_or_lead : String
  first_paragraphs : String
  documents : List String
deriving DecidableEq

/-- `EMANewsScraper._scrape_article`: fetch the page (`none` models a
request exception, caught and turned into `None`), reject a missing or
empty title (`if not title: return None`), extract the date (checked
against `None` although `_extract_date` never returns it), extract the
content, harvest related documents only when the title contains a trigger
keyword, and build the record.  `iso` models `datetime.isoformat`. -/
def emaScrapeArticle (iso : Int → String) (P : String → Option Int) (now : Int)
    (fetch : String → Option EmaPage) (url : String) : Option EmaArticle :=
  match fetch url with
  | none => none
  | some page =>
    match emaExtractTitle page with
    | none => none
    | some title =>
      if title = "" then none
      else
        match emaExtractDate P now page with
        | none => none
        | some pub =>
          let content := emaExtractContent page
          let docs :=
            if emaDocKeywords.any (fun k => strContains (toLowerStr title) k) then
              page.relatedDocs
            else []
          some { title := title, url := url, published_at := pub, published_at_iso := iso pub,
                 summary_or_lead :=
                   if 200 < content.length then content.take 200 ++ "..." else content,
                 first_paragraphs := content, documents := docs }

/-- One iteration of the `get_news_articles` loop for a single URL:
scrape the article and keep it only when `_is_within_date_range` holds
(`if article and self._is_within_date_range(...)`). -/
def emaProcessUrl (iso : Int → String) (P : String → Option Int) (now : Int)
    (fetch : String → Option EmaPage) (cutoff : Int) (url : String) : Option EmaArticle :=
  match emaScrapeArticle iso P now fetch url with
  | some a => if isWithinDateRange a.published_at cutoff then some a else none
  | none => none

/-- `EMANewsScraper.get_news_articles`: compute the cutoff, walk the first
`MAX_ARTICLES_TO_PROCESS` candidate URLs, and accumulate the in-range
records.  A failing item contributes nothing (its exception is caught and
the loop continues); the top-level `try/except` makes the function return
a list on every input. -/
def emaGetNewsArticles (iso : Int → String) (P : String → Option Int) (now : Int)
    (fetch : String → Option EmaPage) (newsUrls : List String) (daysBack : Int) :
    List EmaArticle :=
  (newsUrls.take MAX_ARTICLES_TO_PROCESS).filterMap
    (emaProcessUrl iso P now fetch (cutoffDate now daysBack))

/-! ## EMA candidate locator (`EMANewsScraper._get_news_urls`) -/

/-- One container matched by a `NEWS_CARD_SELECTORS` strategy, reduced to
the `href` of the anchor the code reads from it
(`card.find('a', href=True)` — or the card itself when it is an anchor);
`none` when the card holds no such anchor. -/
structure EmaCard where
  href : Option String
deriving DecidableEq

/-- The EMA news listing page: the `select` result of each
`NEWS_CARD_SELECTORS` strategy in order, and the `href`s of all
`a[href]` elements of the document in document order (the fallback
scan). -/
structure EmaListing where
  strategyResults : List (List EmaCard)
  allAnchors : List String
deriving DecidableEq

/-- The card list the locator iterates over: the first strategy whose
`select` result is non-empty wins (`if cards: break`); when every
strategy matched nothing, the fallback keeps the anchors whose `href`
contains `/en/news/`. -/
def emaCandidateCards (doc : EmaListing) : List (Option String) :=
  match doc.strategyResults.find? (fun l => !l.isEmpty) with
  | some cs => cs.map EmaCard.href
  | none => (doc.allAnchors.filter (fun h => strContains h "/en/news/")).map some

/-- The accumulation step of the locator's URL loop: a card with an
anchor whose non-empty `href` contains `/en/news/` contributes
`urljoin(EMA_BASE_URL, href)` (`join` models the partially applied
`urljoin`), appended only when not already collected. -/
def emaDedupStep (join : String → String) (urls : List String) (oh : Option String) :
    List String :=
  match oh with
  | none => urls
  | some h =>
    if h ≠ "" ∧ strContains h "/en/news/" then
      if join h ∈ urls then urls else urls ++ [join h]
    else urls

/-- `EMANewsScraper._get_news_urls` on an already-fetched listing
document. -/
def emaGetNewsUrls (join : String → String) (doc : EmaListing) : List String :=
  (emaCandidateCards doc).foldl (emaDedupStep join) []

/-- The absolute URLs of the locator's candidates before deduplication,
in document order. -/
def emaJoinedCandidates (join : String → String) (doc : EmaListing) : List String :=
  (emaCandidateCards doc).filterMap
    (fun oh => oh.bind (fun h =>
      if h ≠ "" ∧ strContains h "/en/news/" then some (join h) else none))

/-! ## Fetch sequencer traces

The `time.sleep` calls of the per-source loops, as a trace of events:
`proc i` is the processing (fetch + extraction) of the i-th candidate,
`slp` a `time.sleep(SLEEP_BETWEEN_REQUESTS)` call.  The traces record the
no-exception executions; the per-item exception handlers of the source
are unreachable in the embedding because `_scrape_article` catches its
own exceptions. -/

inductive SeqEv where
  | proc (i : Nat)
  | slp
deriving DecidableEq

def isSleepEv : SeqEv → Bool
  | SeqEv.slp => true
  | _ => false

def sleepCount (l : List SeqEv) : Nat := (l.filter isSleepEv).length

/-- The event trace of the `get_news_articles` loop of the EMA scraper on
`n` candidate URLs: each of the `min n MAX_ARTICLES_TO_PROCESS`
iterations fetches, then sleeps unconditionally (`ema_scraper.py:71`). -/
def emaTrace (n : Nat) : List SeqEv :=
  (List.range (min n MAX_ARTICLES_TO_PROCESS)).flatMap
    (fun i => [SeqEv.proc i, SeqEv.slp])

/-- The event trace of the `scrape_who_news` loop of the WHO scraper on
`n` candidate items: iteration `i` sleeps only when `i < n - 1`
(`who_scraper.py:91`, the guard compares against the full item count, not
the capped one). -/
def whoTrace (n : Nat) : List SeqEv :=
  (List.range (min n MAX_ARTICLES_TO_PROCESS)).flatMap
    (fun i => SeqEv.proc i :: (if i < n - 1 then [SeqEv.slp] else []))

/-! ## WHO scraper (`app/scrapers/who_scraper.py`) -/

/-- The explicit `strptime` format templates of
`WHOScraper._parse_date_from_text`. -/
def whoDateFormats : List String :=
  ["%Y-%m-%d", "%Y/%m/%d", "%d/%m/%Y", "%m/%d/%Y", "%d-%m-%Y", "%m-%d-%Y",
   "%B %d, %Y", "%d %B %Y", "%Y年%m月%d日"]

/-- `WHOScraper._parse_date_from_text`: reject empty and `日付不明`
inputs, try each `strptime` format in order (`strp fmt s`, `none`
modelling `ValueError`), then fall back to `dateutil.parser.parse`
(`du s`, `none` modelling the exception the outer `except` turns into
`None`).  The `.replace(tzinfo=...)` localisation is folded into the
parse oracles, which return the final instant. -/
def whoParseDateFromText (strp : String → String → Option Int) (du : String → Option Int)
    (s : String) : Option Int :=
  if s = "" ∨ s = "日付不明" then none
  else
    match whoDateFormats.findSome? (fun fmt => strp fmt s) with
    | some d => some d
    | none => du s

/-- A fetched WHO or PMDA detail page, as the per-article extractor sees
it: the title selector results in order, plus the strings the
`_extract_summary` and `_extract_content` chains would produce (their
internals are not modelled; no claim concerns them). -/
structure DetailPage where
  titleSel : List (Option String)
  summaryText : String
  contentText : String
deriving DecidableEq

/-- The dictionary built by `WHOScraper._scrape_article` /
`PMDAScraper._scrape_article` before the caller attaches dates. -/
structure ArticleDetail where
  title : String
  url : String
  summary_or_lead : String
  first_paragraphs : String
deriving DecidableEq

/-- `WHOScraper._scrape_article`: fetch (`none` models a request
exception), reject pages whose checked title extraction fails, and build
the detail record. -/
def whoScrapeArticle (fetch : String → Option DetailPage) (url : String) :
    Option ArticleDetail :=
  match fetch url with
  | none => none
  | some p =>
    match whoExtractTitle p.titleSel with
    | none => none
    | some t =>
      some { title := t, url := url, summary_or_lead := p.summaryText,
             first_paragraphs := p.contentText }

/-- One listing item found by `WHOScraper._get_news_items` (the
Selenium-rendered locator, abstracted as the pipeline's input). -/
structure WhoItem where
  url : String
  date_text : String
  title : String
deriving DecidableEq

/-- A record emitted by `scrape_who_news`. -/
structure WhoArticle where
  title : String
  url : String
  summary_or_lead : String
  first_paragraphs : String
  published_at : Int
  published_at_iso : String
deriving DecidableEq

/-- One iteration of the `scrape_who_news` loop: parse the listing date,
substitute `datetime.now(self.tz)` when parsing failed
(`who_scraper.py:68-70`), retain the item if the date text is `日付不明`
or the date is within range, and then fetch and extract the detail
page. -/
def whoProcessItem (iso : Int → String) (strp : String → String → Option Int)
    (du : String → Option Int) (now : Int) (fetch : String → Option DetailPage)
    (cutoff : Int) (it : WhoItem) : Option WhoArticle :=
  let pub := (whoParseDateFromText strp du it.date_text).getD now
  if it.date_text = "日付不明" ∨ isWithinDateRange pub cutoff then
    (whoScrapeArticle fetch it.url).map (fun d =>
      { title := d.title, url := d.url, summary_or_lead := d.summary_or_lead,
        first_paragraphs := d.first_paragraphs, published_at := pub,
        published_at_iso := iso pub })
  else none

/-- `WHOScraper.scrape_who_news`: empty candidate list short-circuits to
`[]`; otherwise the first `MAX_ARTICLES_TO_PROCESS` items are processed
and the surviving records accumulated.  Total on every input (the
top-level `try/except` returns `[]` instead of raising). -/
def whoScrapeWhoNews (iso : Int → String) (strp : String → String → Option Int)
    (du : String → Option Int) (now : Int) (fetch : String → Option DetailPage)
    (items : List WhoItem) (daysBack : Int) : List WhoArticle :=
  if items.isEmpty then []
  else
    (items.take MAX_ARTICLES_TO_PROCESS).filterMap
      (whoProcessItem iso strp du now fetch (cutoffDate now daysBack))

/-! ## FDA scraper (`app/scrapers/fda_scraper_selenium.py`) -/

/-- `FDAScraperSelenium._setup_driver` in `__init__`: the `try` block
creates the Selenium driver (its success is the `Option` input); the
`except` block logs and re-raises (`fda_scraper_selenium.py:61`), so a
setup failure propagates to the caller as a hard failure. -/
def fdaSetupDriver (driverInit : Option Unit) : Except String Unit :=
  match driverInit with
  | some d => Except.ok d
  | none => Except.error "Error setting up Selenium WebDriver"

/-- A fetched FDA detail page.  `dateResult` abstracts the combined
outcome of the `_extract_date` strategy chain (table cells, selector
list, document-wide regex scan) before its final fallback: `none` means
every strategy failed, in which case the code returns
`datetime.now(self.tz)` (`fda_scraper_selenium.py:446-448`).  No claim
depends on the order of those strategies. -/
structure FdaPage where
  titleSel : List (Option String)
  dateResult : Option Int
  contentSel : List (List String)
  allParagraphs : List String
deriving DecidableEq

/-- `FDAScraperSelenium._extract_date`: the strategy-chain result when
one strategy succeeded, else the current time.  Never `None`. -/
def fdaExtractDate (now : Int) (page : FdaPage) : Option Int :=
  match page.dateResult with
  | some d => some d
  | none => some now

/-- The selector loop of `FDAScraperSelenium._extract_content`: the
paragraph accumulator is only tested after a selector's elements were
filtered (`if paragraphs: break`), so the first selector whose filtered
result is non-empty wins (no cap on the element count here). -/
def fdaFirstFilteredSel : List (List String) → List String
  | [] => []
  | s :: rest =>
    let f := s.filter (fun t => decide (t ≠ "" ∧ 50 < t.length))
    if f.isEmpty then fdaFirstFilteredSel rest else f

/-- `FDAScraperSelenium._extract_content`: selector chain, then an
uncapped document-wide `<p>` fallback with the same filter, then the
sentinel. -/
def fdaExtractContent (page : FdaPage) : String :=
  let ps := fdaFirstFilteredSel page.contentSel
  let ps :=
    if ps.isEmpty then
      page.allParagraphs.filter (fun t => decide (t ≠ "" ∧ 50 < t.length))
    else ps
  if ps.isEmpty then "Content not available" else String.intercalate "\n\n" ps

/-- A record emitted by `scrape_fda_guidance`. -/
structure FdaDoc where
  title : String
  url : String
  published_at : Int
  published_at_iso : String
  summary_or_lead : String
  first_paragraphs : String
deriving DecidableEq

/-- `FDAScraperSelenium._scrape_document`: fetch and render the page
(`none` models an exception, caught and turned into `None`), checked
title extraction (`if not title: return None`), date extraction (checked
against `None` although `_extract_date` never returns it), content,
record. -/
def fdaScrapeDocument (iso : Int → String) (now : Int)
    (fetch : String → Option FdaPage) (url : String) : Option FdaDoc :=
  match fetch url with
  | none => none
  | some page =>
    match fdaExtractTitle page.titleSel with
    | none => none
    | some title =>
      match fdaExtractDate now page with
      | none => none
      | some pub =>
        let content := fdaExtractContent page
        some { title := title, url := url, published_at := pub, published_at_iso := iso pub,
               summary_or_lead :=
                 if 200 < content.length then content.take 200 ++ "..." else content,
               first_paragraphs := content }

/-- One iteration of the table-data loop of `scrape_fda_guidance`
(`fda_scraper_selenium.py:85-116`): with no table date, the detail page's
extracted date decides the cutoff test; with a parsed table date, the
cutoff test uses the table date, and the emitted record's
`published_at` / `published_at_iso` are overridden with it. -/
def fdaProcessTableEntry (iso : Int → String) (now : Int)
    (fetch : String → Option FdaPage) (cutoff : Int) (entry : String × Option Int) :
    Option FdaDoc :=
  match entry.2 with
  | none =>
    match fdaScrapeDocument iso now fetch entry.1 with
    | some doc => if isWithinDateRange doc.published_at cutoff then some doc else none
    | none => none
  | some tableDate =>
    if isWithinDateRange tableDate cutoff then
      match fdaScrapeDocument iso now fetch entry.1 with
      | some doc => some { doc with published_at := tableDate, published_at_iso := iso tableDate }
      | none => none
    else none

/-- `FDAScraperSelenium.scrape_fda_guidance`: process every `(url, date)`
pair of the search-results table (note: this loop has no
`MAX_ARTICLES_TO_PROCESS` cap); only when that produced no documents,
fall back to the plain URL list capped at `MAX_ARTICLES_TO_PROCESS`.
`tableData` is the output of `_get_guidance_data_from_table`,
`guidanceUrls` of `_get_guidance_urls` (both Selenium-rendered locators,
abstracted as inputs). -/
def fdaScrapeGuidance (iso : Int → String) (now : Int) (fetch : String → Option FdaPage)
    (tableData : List (String × Option Int)) (guidanceUrls : List String)
    (daysBack : Int) : List FdaDoc :=
  let cutoff := cutoffDate now daysBack
  let docs := tableData.filterMap (fdaProcessTableEntry iso now fetch cutoff)
  if docs.isEmpty then
    (guidanceUrls.take MAX_ARTICLES_TO_PROCESS).filterMap (fun url =>
      match fdaScrapeDocument iso now fetch url with
      | some doc => if isWithinDateRange doc.published_at cutoff then some doc else none
      | none => none)
  else docs

/-! ## PMDA scraper (`app/scrapers/pmda_scraper.py`) -/

/-- Python's `str.endswith`, on the character lists of the two strings
(kernel-reducible, unlike `String.endsWith`). -/
def strEndsWith (s pat : String) : Bool :=
  decide (pat.toList.length ≤ s.toList.length
    ∧ s.toList.drop (s.toList.length - pat.toList.length) = pat.toList)

/-- Python's `str.startswith`, on the character lists of the two strings. -/
def strStartsWith (s pat : String) : Bool :=
  decide (s.toList.take pat.toList.length = pat.toList)

/-- A `$`-anchored `.xyz$` pattern of `_is_news_url`'s exclusion list:
`re.search` matches when the string ends in the extension preceded by at
least one character (the regex dot). -/
def pmdaDotEndHit (u ext : String) : Bool :=
  strEndsWith u ext && decide (ext.length < u.length)

/-- The exclusion-pattern test of `PMDAScraper._is_news_url`
(case-insensitive `re.search` of each pattern; all patterns are literal
substrings except the `$`-anchored extension patterns). -/
def pmdaExcludeHit (url : String) : Bool :=
  let u := toLowerStr url
  strContains u "/english/" || strContains u "/sitemap" || strContains u "/contact" ||
  strContains u "/privacy" || strContains u "/accessibility" ||
  strContains u "/site-policy" || strContains u "/link" || strContains u "/search" ||
  strContains u "/user/" || pmdaDotEndHit u "pdf" || pmdaDotEndHit u "doc" ||
  pmdaDotEndHit u "docx" || pmdaDotEndHit u "xls" || pmdaDotEndHit u "xlsx" ||
  strContains u "javascript:" || strContains u "mailto:" || strContains u "#" ||
  strContains u "apology_objects"

/-- `PMDAScraper._is_news_url(url, text)`. -/
def pmdaIsNewsUrl (url text : String) : Bool :=
  if url = "" ∨ text = "" then false
  else if pmdaExcludeHit url then false
  else if text.length < 10 then false
  else strStartsWith url "/" || strContains url "pmda.go.jp"

/-- One `li` of the PMDA listing page: the texts of its `p.date`,
`p.category` and `p.title` children (when present), the `href`s of its
anchors that carry an `href` attribute, in order, and whether the regex
`\d{4}年\d{1,2}月\d{1,2}日` matches the item's full text (used only by
the fallback scan). -/
structure PmdaLi where
  dateText : Option String
  category : Option String
  titleText : Option String
  links : List String
  hasDatePattern : Bool
deriving DecidableEq

/-- The PMDA listing document: the `li` lists of the `ul.list__news`
elements, and all `li` elements the generic `'ul li, ol li'` fallback
query returns (which includes the news-list items), in document order. -/
structure PmdaListing where
  newsLists : List (List PmdaLi)
  allListItems : List PmdaLi
deriving DecidableEq

/-- One candidate produced by `PMDAScraper._get_news_urls`. -/
structure PmdaItem where
  url : String
  date_text : String
  category : String
  title : String
deriving DecidableEq

/-- The primary discovery path of `PMDAScraper._get_news_urls`
(`pmda_scraper.py:129-179`): items of `ul.list__news` lists with a
`p.date` child; items whose category text is exactly `採用` or `調達`
are skipped; the first anchor with an `href` is taken and must pass
`_is_news_url`. -/
def pmdaPrimaryItems (join : String → String) (doc : PmdaListing) : List PmdaItem :=
  doc.newsLists.flatMap (fun lis => lis.filterMap (fun li =>
    match li.dateText with
    | none => none
    | some dt =>
      let cat := li.category.getD ""
      if cat = "採用" ∨ cat = "調達" then none
      else
        let title := li.titleText.getD ""
        match li.links.head? with
        | none => none
        | some href =>
          if href ≠ "" ∧ pmdaIsNewsUrl href title then
            some { url := join href, date_text := dt, category := cat, title := title }
          else none))

/-- The fallback discovery path of `PMDAScraper._get_news_urls`
(`pmda_scraper.py:182-217`): scan every generic `li` whose text matches
the date pattern, keep every anchor passing `_is_news_url`, with
`date_text` fixed to `日付不明` and `category` fixed to `その他` — no
category filter here. -/
def pmdaFallbackItems (join : String → String) (doc : PmdaListing) : List PmdaItem :=
  doc.allListItems.flatMap (fun li =>
    if li.hasDatePattern then
      (li.links.filterMap (fun href =>
        if href ≠ "" ∧ pmdaIsNewsUrl href (li.titleText.getD "") then
          some { url := join href, date_text := "日付不明", category := "その他",
                 title := li.titleText.getD "" }
        else none))
    else [])

/-- `PMDAScraper._get_news_urls`: the fallback scan runs only when the
primary path found no items. -/
def pmdaGetNewsUrls (join : String → String) (doc : PmdaListing) : List PmdaItem :=
  let items := pmdaPrimaryItems join doc
  if items.isEmpty then pmdaFallbackItems join doc else items

/-- `2025年10月7日 -> 2025-10-7`: the `replace` chain of
`PMDAScraper._parse_date_from_text`. -/
def pmdaRewriteDate (s : String) : String :=
  String.mk (s.toList.foldr
    (fun c acc =>
      if c = '年' ∨ c = '月' then '-' :: acc
      else if c = '日' then acc
      else c :: acc) [])

/-- `PMDAScraper._parse_date_from_text`: reject empty and `日付不明`
inputs; rewrite the Japanese calendar form to a dash-separated numeric
form when the three calendar words are all present; then parse with
`dateutil` (`du`, `none` modelling the exception the `except` turns into
`None`). -/
def pmdaParseDateFromText (du : String → Option Int) (s : String) : Option Int :=
  if s = "" ∨ s = "日付不明" then none
  else if strContains s "年" && strContains s "月" && strContains s "日" then
    du (pmdaRewriteDate s)
  else du s

/-- `PMDAScraper._scrape_article` (same shape as the WHO one). -/
def pmdaScrapeArticle (fetch : String → Option DetailPage) (url : String) :
    Option ArticleDetail :=
  match fetch url with
  | none => none
  | some p =>
    match pmdaExtractTitle p.titleSel with
    | none => none
    | some t =>
      some { title := t, url := url, summary_or_lead := p.summaryText,
             first_paragraphs := p.contentText }

/-- A record emitted by `scrape_pmda_news`. -/
structure PmdaArticle where
  title : String
  url : String
  summary_or_lead : String
  first_paragraphs : String
  category : String
  published_at : Int
  published_at_iso : String
deriving DecidableEq

/-- One iteration of the `scrape_pmda_news` loop: parse the listing date,
substitute the current time when parsing failed
(`pmda_scraper.py:74-76`), keep the item only when within range (no
`日付不明` inclusion rule here, unlike WHO), then fetch the detail
page. -/
def pmdaProcessItem (iso : Int → String) (du : String → Option Int) (now : Int)
    (fetch : String → Option DetailPage) (cutoff : Int) (it : PmdaItem) :
    Option PmdaArticle :=
  let pub := (pmdaParseDateFromText du it.date_text).getD now
  if isWithinDateRange pub cutoff then
    (pmdaScrapeArticle fetch it.url).map (fun d =>
      { title := d.title, url := d.url, summary_or_lead := d.summary_or_lead,
        first_paragraphs := d.first_paragraphs, category := it.category,
        published_at := pub, published_at_iso := iso pub })
  else none

/-- `PMDAScraper.scrape_pmda_news` on an already-discovered candidate
list. -/
def pmdaScrapeNews (iso : Int → String) (du : String → Option Int) (now : Int)
    (fetch : String → Option DetailPage) (items : List PmdaItem) (daysBack : Int) :
    List PmdaArticle :=
  if items.isEmpty then []
  else
    (items.take MAX_ARTICLES_TO_PROCESS).filterMap
      (pmdaProcessItem iso du now fetch (cutoffDate now daysBack))

/-! ## Helper lemmas -/

/-- Any title accepted by the shared checked title scan is non-empty,
longer than 10 characters, and free of error-page phrases. -/
theorem titleScan_some : ∀ {l : List (Option String)} {t : String}, titleScan l = some t →
    t ≠ "" ∧ 10 < t.length ∧ hasErrorPhrase t = false
  | [], t, h => by simp [titleScan] at h
  | none :: rest, t, h => @titleScan_some rest t (by simpa [titleScan] using h)
  | some s :: rest, t, h => by
    by_cases h1 : s ≠ "" ∧ 10 < s.length
    · by_cases h2 : hasErrorPhrase s = true
      · simp [titleScan, h1, h2] at h
      · have hs : s = t := by simpa [titleScan, h1, h2] using h
        subst hs
        exact ⟨h1.1, h1.2, by simpa using h2⟩
    · exact @titleScan_some rest t (by simpa [titleScan, h1] using h)

theorem whoScrapeArticle_title {fetch : String → Option DetailPage} {url : String}
    {d : ArticleDetail} (h : whoScrapeArticle fetch url = some d) :
    d.title ≠ "" ∧ 10 < d.title.length ∧ hasErrorPhrase d.title = false := by
  unfold whoScrapeArticle at h
  cases hf : fetch url with
  | none => simp [hf] at h
  | some p =>
    simp only [hf] at h
    cases ht : whoExtractTitle p.titleSel with
    | none => simp [ht] at h
    | some t =>
      simp only [ht] at h
      have hd : d.title = t := by
        cases h
        rfl
      rw [hd]
      exact titleScan_some ht

theorem pmdaScrapeArticle_title {fetch : String → Option DetailPage} {url : String}
    {d : ArticleDetail} (h : pmdaScrapeArticle fetch url = some d) :
    d.title ≠ "" ∧ 10 < d.title.length ∧ hasErrorPhrase d.title = false := by
  unfold pmdaScrapeArticle at h
  cases hf : fetch url with
  | none => simp [hf] at h
  | some p =>
    simp only [hf] at h
    cases ht : pmdaExtractTitle p.titleSel with
    | none => simp [ht] at h
    | some t =>
      simp only [ht] at h
      have hd : d.title = t := by
        cases h
        rfl
      rw [hd]
      exact titleScan_some ht

theorem fdaScrapeDocument_title {iso : Int → String} {now : Int}
    {fetch : String → Option FdaPage} {url : String} {doc : FdaDoc}
    (h : fdaScrapeDocument iso now fetch url = some doc) :
    doc.title ≠ "" ∧ 10 < doc.title.length ∧ hasErrorPhrase doc.title = false := by
  unfold fdaScrapeDocument at h
  cases hf : fetch url with
  | none => simp [hf] at h
  | some p =>
    simp only [hf] at h
    cases ht : fdaExtractTitle p.titleSel with
    | none => simp [ht] at h
    | some t =>
      simp only [ht] at h
      cases hd : fdaExtractDate now p with
      | none => simp [hd] at h
      | some pub =>
        simp only [hd] at h
        have hdoc : doc.title = t := by
          cases h
          rfl
        rw [hdoc]
        exact titleScan_some ht

theorem emaScrapeArticle_title {iso : Int → String} {P : String → Option Int} {now : Int}
    {fetch : String → Option EmaPage} {url : String} {a : EmaArticle}
    (h : emaScrapeArticle iso P now fetch url = some a) : a.title ≠ "" := by
  unfold emaScrapeArticle at h
  cases hf : fetch url with
  | none => simp [hf] at h
  | some page =>
    simp only [hf] at h
    cases ht : emaExtractTitle page with
    | none => simp [ht] at h
    | some title =>
      simp only [ht] at h
      by_cases hemp : title = ""
      · simp [hemp] at h
      · simp only [hemp, if_false] at h
        cases hd : emaExtractDate P now page with
        | none => simp [hd] at h
        | some pub =>
          simp only [hd] at h
          have : a.title = title := by
            cases h
            rfl
          rw [this]
          exact hemp

/-! ## Claim C1 -/

/-- A fetched EMA page whose first title selector matches an element with
an error-page text, and whose date selectors match nothing (so the date
falls back to the current time). -/
def emaBadTitlePage : EmaPage :=
  { titleSel := [some "Sorry, Page Not Found 404"], titleTag := none,
    dateSel := [], contentSel := [], allParagraphs := [], relatedDocs := [] }

/-- Claim C1, counterexample: `EMANewsScraper._extract_title` performs no
error-page check, so a run of `get_news_articles` over a candidate whose
page carries the title "Sorry, Page Not Found 404" emits a Record with
exactly that title, which case-insensitively contains the phrases
"page not found", "404" and "error" of the rejection set. -/
theorem ema_emits_error_page_title :
    (emaGetNewsArticles (fun _ => "") (fun _ => none) 0 (fun _ => some emaBadTitlePage)
        ["https://www.ema.europa.eu/en/news/x"] 7).map EmaArticle.title
      = ["Sorry, Page Not Found 404"]
    ∧ hasErrorPhrase "Sorry, Page Not Found 404" = true := by
  constructor
  · decide
  · decide

/-- Claim C1, amended: Records emitted by the FDA, PMDA and WHO pipelines
carry titles that are non-empty, longer than 10 characters, and free of
the error phrases `page not found`, `not available`, `error`, `404`
(candidates with such titles are rejected).  Records emitted by the EMA
pipeline are only guaranteed a non-empty title: `_extract_title` of the
EMA scraper has no error-phrase check. -/
theorem emitted_title_policy :
    (∀ iso strp du now fetch items daysBack r,
        r ∈ whoScrapeWhoNews iso strp du now fetch items daysBack →
        r.title ≠ "" ∧ 10 < r.title.length ∧ hasErrorPhrase r.title = false)
    ∧ (∀ iso du now fetch items daysBack r,
        r ∈ pmdaScrapeNews iso du now fetch items daysBack →
        r.title ≠ "" ∧ 10 < r.title.length ∧ hasErrorPhrase r.title = false)
    ∧ (∀ iso now fetch tableData guidanceUrls daysBack r,
        r ∈ fdaScrapeGuidance iso now fetch tableData guidanceUrls daysBack →
        r.title ≠ "" ∧ 10 < r.title.length ∧ hasErrorPhrase r.title = false)
    ∧ (∀ iso P now fetch newsUrls daysBack a,
        a ∈ emaGetNewsArticles iso P now fetch newsUrls daysBack → a.title ≠ "") := by
  refine ⟨?_, ?_, ?_, ?_⟩
  · intro iso strp du now fetch items daysBack r hr
    simp only [whoScrapeWhoNews] at hr
    split at hr
    · simp at hr
    · rw [List.mem_filterMap] at hr
      obtain ⟨it, -, hit⟩ := hr
      simp only [whoProcessItem] at hit
      split at hit
      · obtain ⟨d, hd, hrd⟩ := Option.map_eq_some'.mp hit
        have : r.title = d.title := by
          cases hrd
          rfl
        rw [this]
        exact whoScrapeArticle_title hd
      · simp at hit
  · intro iso du now fetch items daysBack r hr
    simp only [pmdaScrapeNews] at hr
    split at hr
    · simp at hr
    · rw [List.mem_filterMap] at hr
      obtain ⟨it, -, hit⟩ := hr
      simp only [pmdaProcessItem] at hit
      split at hit
      · obtain ⟨d, hd, hrd⟩ := Option.map_eq_some'.mp hit
        have : r.title = d.title := by
          cases hrd
          rfl
        rw [this]
        exact pmdaScrapeArticle_title hd
      · simp at hit
  · intro iso now fetch tableData guidanceUrls daysBack r hr
    simp only [fdaScrapeGuidance] at hr
    split at hr
    · rw [List.mem_filterMap] at hr
      obtain ⟨url, -, hu⟩ := hr
      cases hs : fdaScrapeDocument iso now fetch url with
      | none => simp [hs] at hu
      | some doc =>
        simp only [hs] at hu
        split at hu
        · have : doc = r := by
            cases hu
            rfl
          rw [← this]
          exact fdaScrapeDocument_title hs
        · simp at hu
    · rw [List.mem_filterMap] at hr
      obtain ⟨entry, -, he⟩ := hr
      obtain ⟨u, td⟩ := entry
      simp only [fdaProcessTableEntry] at he
      cases td with
      | none =>
        cases hs : fdaScrapeDocument iso now fetch u with
        | none => simp [hs] at he
        | some doc =>
          simp only [hs] at he
          split at he
          · have : doc = r := by
              cases he
              rfl
            rw [← this]
            exact fdaScrapeDocument_title hs
          · simp at he
      | some d =>
        simp only at he
        split at he
        · cases hs : fdaScrapeDocument iso now fetch u with
          | none => simp [hs] at he
          | some doc =>
            simp only [hs] at he
            have : r.title = doc.title := by
              cases he
              rfl
            rw [this]
            exact (fdaScrapeDocument_title hs).1 |> fun h1 =>
              ⟨h1, (fdaScrapeDocument_title hs).2⟩
        · simp at he
  · intro iso P now fetch newsUrls daysBack a ha
    simp only [emaGetNewsArticles] at ha
    rw [List.mem_filterMap] at ha
    obtain ⟨u, -, hu⟩ := ha
    simp only [emaProcessUrl] at hu
    cases hs : emaScrapeArticle iso P now fetch u with
    | none => simp [hs] at hu
    | some b =>
      simp only [hs] at hu
      split at hu
      · have : b = a := by
          cases hu
          rfl
        rw [← this]
        exact emaScrapeArticle_title hs
      · simp at hu

/-- A WHO detail page with a legitimate title. -/
def whoDetailPage0 : DetailPage :=
  { titleSel := [some "WHO publishes new guidance"], summaryText := "lead", contentText := "body" }

/-- The record the WHO pipeline emits for `whoItem0` below. -/
def whoRec0 : WhoArticle :=
  { title := "WHO publishes new guidance", url := "https://www.who.int/news/item/x",
    summary_or_lead := "lead", first_paragraphs := "body", published_at := 0,
    published_at_iso := "" }

/-- A WHO listing item with an unparseable date marker. -/
def whoItem0 : WhoItem :=
  { url := "https://www.who.int/news/item/x", date_text := "日付不明", title := "t" }

/-- Witness for `emitted_title_policy` at a concrete WHO run. -/
theorem emitted_title_policy_witness :
    whoRec0.title ≠ "" ∧ 10 < whoRec0.title.length ∧ hasErrorPhrase whoRec0.title = false :=
  emitted_title_policy.1 (fun _ => "") (fun _ _ => none) (fun _ => none) 0
    (fun _ => some whoDetailPage0) [whoItem0] 7 whoRec0 (by decide)

/-! ## Claim C2 -/

/-- An EMA page whose only matched date element carries an unparseable
date string. -/
def emaUnparseableDatePage : EmaPage :=
  { titleSel := [some "Some long enough news title"], titleTag := none,
    dateSel := [some { text := "not a date", datetimeAttr := none }],
    contentSel := [], allParagraphs := [], relatedDocs := [] }

/-- Claim C2, counterexample: on a page whose every date-parsing attempt
fails (the parse oracle returns `none` everywhere, modelling
`dateutil.parser.parse` raising), `EMANewsScraper._extract_date` does not
return the unparseable outcome `None`: it substitutes the current
time. -/
theorem ema_extract_date_substitutes_now :
    emaExtractDate (fun _ => none) 123456 emaUnparseableDatePage = some 123456
    ∧ emaExtractDate (fun _ => none) 123456 emaUnparseableDatePage ≠ none := by
  exact ⟨by decide, by decide⟩

/-- Claim C2, amended: `WHOScraper._parse_date_from_text` returns the
unparseable outcome `None` (without raising) whenever every strategy
fails — every `strptime` format template and the `dateutil` fallback —
whereas `EMANewsScraper._extract_date` never returns `None`: when every
selector's candidate string fails to parse it substitutes the current
time, as its own in-code documented fallback. -/
theorem date_parse_failure_policy :
    (∀ strp du s, (∀ fmt ∈ whoDateFormats, strp fmt s = none) → du s = none →
        whoParseDateFromText strp du s = none)
    ∧ (∀ P now page, (∀ oe ∈ page.dateSel, oe.bind (fun e => P (emaDateText e)) = none) →
        emaExtractDate P now page = some now) := by
  constructor
  · intro strp du s hfmt hdu
    unfold whoParseDateFromText
    split
    · rfl
    · rw [List.findSome?_eq_none_iff.mpr hfmt]
      exact hdu
  · intro P now page hall
    unfold emaExtractDate
    rw [List.findSome?_eq_none_iff.mpr hall]

/-- Witness for `date_parse_failure_policy` at concrete inputs: the WHO
parser on an arbitrary junk string with everywhere-failing oracles, and
the EMA extractor on `emaUnparseableDatePage`. -/
theorem date_parse_failure_policy_witness :
    whoParseDateFromText (fun _ _ => none) (fun _ => none) "March 32" = none
    ∧ emaExtractDate (fun _ => none) 5 emaUnparseableDatePage = some 5 :=
  ⟨date_parse_failure_policy.1 (fun _ _ => none) (fun _ => none) "March 32"
      (fun _ _ => rfl) rfl,
   date_parse_failure_policy.2 (fun _ => none) 5 emaUnparseableDatePage (by decide)⟩

/-! ## Claim C3 -/

/-- An EMA page yielding an ordinary record. -/
def emaPlainPage : EmaPage :=
  { titleSel := [some "An ordinary EMA news article"], titleTag := none,
    dateSel := [some { text := "d", datetimeAttr := none }],
    contentSel := [], allParagraphs := [], relatedDocs := [] }

/-- A parse oracle resolving only the string `"d"`. -/
def emaP0 : String → Option Int := fun s => if s = "d" then some 10 else none

/-- The record the EMA pipeline emits for `emaPlainPage`. -/
def emaRec0 : EmaArticle :=
  { title := "An ordinary EMA news article", url := "u", published_at := 10,
    published_at_iso := "", summary_or_lead := "Content not available",
    first_paragraphs := "Content not available", documents := [] }

/-- Claim C3: the entry points return a list on every input — with no
candidates, or with every item's fetch failing (in each of the four
scrapers), the result is `[]`, not an exception; the outcome of one item
depends only on that item's own fetch, and a successful in-range item is
emitted whatever happens to the other items; and the FDA driver-setup
failure is the one error that propagates to the caller (`_setup_driver`
re-raises). -/
theorem pipeline_error_isolation :
    (∀ iso P now fetch daysBack, emaGetNewsArticles iso P now fetch [] daysBack = [])
    ∧ (∀ iso P now newsUrls daysBack,
        emaGetNewsArticles iso P now (fun _ => none) newsUrls daysBack = [])
    ∧ (∀ iso P now fetch fetch2 cutoff u, fetch u = fetch2 u →
        emaProcessUrl iso P now fetch cutoff u = emaProcessUrl iso P now fetch2 cutoff u)
    ∧ (∀ iso P now fetch newsUrls daysBack u a,
        u ∈ newsUrls.take MAX_ARTICLES_TO_PROCESS →
        emaProcessUrl iso P now fetch (cutoffDate now daysBack) u = some a →
        a ∈ emaGetNewsArticles iso P now fetch newsUrls daysBack)
    ∧ (∀ d, fdaSetupDriver (some d) = Except.ok d)
    ∧ fdaSetupDriver none = Except.error "Error setting up Selenium WebDriver"
    ∧ (∀ iso strp du now items daysBack,
        whoScrapeWhoNews iso strp du now (fun _ => none) items daysBack = [])
    ∧ (∀ iso du now items daysBack,
        pmdaScrapeNews iso du now (fun _ => none) items daysBack = [])
    ∧ (∀ iso now tableData guidanceUrls daysBack,
        fdaScrapeGuidance iso now (fun _ => none) tableData guidanceUrls daysBack = []) := by
  refine ⟨?_, ?_, ?_, ?_, fun d => rfl, rfl, ?_, ?_, ?_⟩
  · intro iso P now fetch daysBack
    rfl
  · intro iso P now newsUrls daysBack
    simp only [emaGetNewsArticles]
    rw [List.filterMap_eq_nil_iff]
    intro u _
    rfl
  · intro iso P now fetch fetch2 cutoff u h
    simp only [emaProcessUrl, emaScrapeArticle, h]
  · intro iso P now fetch newsUrls daysBack u a hu ha
    simp only [emaGetNewsArticles]
    exact List.mem_filterMap.mpr ⟨u, hu, ha⟩
  · intro iso strp du now items daysBack
    unfold whoScrapeWhoNews
    split
    · rfl
    · rw [List.filterMap_eq_nil_iff]
      intro it _
      simp only [whoProcessItem, whoScrapeArticle]
      split <;> rfl
  · intro iso du now items daysBack
    unfold pmdaScrapeNews
    split
    · rfl
    · rw [List.filterMap_eq_nil_iff]
      intro it _
      simp only [pmdaProcessItem, pmdaScrapeArticle]
      split <;> rfl
  · intro iso now tableData guidanceUrls daysBack
    simp only [fdaScrapeGuidance]
    have htab : tableData.filterMap
        (fdaProcessTableEntry iso now (fun _ => none) (cutoffDate now daysBack)) = [] := by
      rw [List.filterMap_eq_nil_iff]
      intro entry _
      rcases entry with ⟨u, td⟩
      cases td <;> simp [fdaProcessTableEntry, fdaScrapeDocument]
    rw [htab]
    simp only [List.isEmpty_nil, if_true]
    rw [List.filterMap_eq_nil_iff]
    intro url _
    rfl

/-- Witness for `pipeline_error_isolation`: item-locality between two
fetch environments that agree on `"u"` but differ on `"v"`, and emission
of `emaRec0` from a run where the fetch succeeds. -/
theorem pipeline_error_isolation_witness :
    emaProcessUrl (fun _ => "") emaP0 10 (fun _ => some emaPlainPage) 0 "u"
      = emaProcessUrl (fun _ => "") emaP0 10
          (fun s => if s = "v" then none else some emaPlainPage) 0 "u"
    ∧ emaRec0 ∈ emaGetNewsArticles (fun _ => "") emaP0 10 (fun _ => some emaPlainPage) ["u"] 1 :=
  ⟨pipeline_error_isolation.2.2.1 (fun _ => "") emaP0 10 (fun _ => some emaPlainPage)
      (fun s => if s = "v" then none else some emaPlainPage) 0 "u" (by decide),
   pipeline_error_isolation.2.2.2.1 (fun _ => "") emaP0 10 (fun _ => some emaPlainPage)
      ["u"] 1 "u" emaRec0 (by decide) (by decide)⟩

/-! ## Claim C6 -/

/-- Claim C6: widening the lookback window only adds Records — for
`d₁ < d₂` evaluated at the same current time over the same fetched
documents, every Record retained by `get_news_articles` with
`days_back = d₁` is also retained with `days_back = d₂`. -/
theorem cutoff_monotone :
    ∀ iso P now fetch newsUrls d1 d2, d1 < d2 →
      ∀ a, a ∈ emaGetNewsArticles iso P now fetch newsUrls d1 →
        a ∈ emaGetNewsArticles iso P now fetch newsUrls d2 := by
  intro iso P now fetch newsUrls d1 d2 hd a ha
  simp only [emaGetNewsArticles] at ha ⊢
  rw [List.mem_filterMap] at ha ⊢
  obtain ⟨u, hu, hp⟩ := ha
  refine ⟨u, hu, ?_⟩
  simp only [emaProcessUrl] at hp ⊢
  cases hs : emaScrapeArticle iso P now fetch u with
  | none => simp [hs] at hp
  | some b =>
    simp only [hs] at hp ⊢
    split at hp
    case isTrue hin =>
      have hba : b = a := by
        cases hp
        rfl
      subst hba
      rw [if_pos ?_]
      simp only [isWithinDateRange, cutoffDate, ge_iff_le, decide_eq_true_eq] at hin ⊢
      omega
    case isFalse => simp at hp

/-- Witness for `cutoff_monotone`: the record emitted with a one-day
window is still emitted with a two-day window. -/
theorem cutoff_monotone_witness :
    emaRec0 ∈ emaGetNewsArticles (fun _ => "") emaP0 10 (fun _ => some emaPlainPage) ["u"] 2 :=
  cutoff_monotone (fun _ => "") emaP0 10 (fun _ => some emaPlainPage) ["u"] 1 2 (by decide)
    emaRec0 (by decide)

/-! ## Trace lemmas -/

def isProcEv : SeqEv → Bool
  | SeqEv.proc _ => true
  | _ => false

def procCount (l : List SeqEv) : Nat := (l.filter isProcEv).length

theorem sleepCount_append (a b : List SeqEv) :
    sleepCount (a ++ b) = sleepCount a + sleepCount b := by
  simp [sleepCount, List.filter_append]

theorem sleepCount_pairFlatMap : ∀ l : List Nat,
    sleepCount (l.flatMap (fun i => [SeqEv.proc i, SeqEv.slp])) = l.length := by
  intro l
  induction l with
  | nil => rfl
  | cons x xs ih =>
    rw [List.flatMap_cons, sleepCount_append, ih]
    simp [sleepCount, isSleepEv]
    omega

theorem procCount_pairFlatMap : ∀ l : List Nat,
    procCount (l.flatMap (fun i => [SeqEv.proc i, SeqEv.slp])) = l.length := by
  intro l
  induction l with
  | nil => rfl
  | cons x xs ih =>
    rw [List.flatMap_cons]
    simp only [procCount, List.filter_append, List.length_append] at ih ⊢
    rw [ih]
    simp [isProcEv]
    omega

theorem pairFlatMap_getLast? : ∀ l : List Nat, l ≠ [] →
    (l.flatMap (fun i => [SeqEv.proc i, SeqEv.slp])).getLast? = some SeqEv.slp := by
  intro l
  induction l with
  | nil => intro h; exact absurd rfl h
  | cons x xs ih =>
    intro _
    cases xs with
    | nil => rfl
    | cons y ys =>
      rw [List.flatMap_cons]
      rw [List.getLast?_append_of_ne_nil _ (by simp [List.flatMap_cons])]
      exact ih (by simp)

theorem whoTrace_eq_of_le {n : Nat} (h1 : 1 ≤ n) (h2 : n ≤ MAX_ARTICLES_TO_PROCESS) :
    whoTrace n
      = ((List.range (n - 1)).flatMap (fun i => [SeqEv.proc i, SeqEv.slp]))
        ++ [SeqEv.proc (n - 1)] := by
  obtain ⟨m, rfl⟩ : ∃ m, n = m + 1 := ⟨n - 1, by omega⟩
  unfold whoTrace
  rw [Nat.min_eq_left h2, List.range_succ, List.flatMap_append]
  simp only [Nat.add_sub_cancel]
  congr 1
  · exact List.flatMap_congr (fun i hi => by
      rw [if_pos (List.mem_range.mp hi)])
  · simp

theorem whoTrace_eq_of_gt {n : Nat} (h : MAX_ARTICLES_TO_PROCESS < n) :
    whoTrace n
      = (List.range MAX_ARTICLES_TO_PROCESS).flatMap (fun i => [SeqEv.proc i, SeqEv.slp]) := by
  unfold whoTrace
  rw [Nat.min_eq_right (Nat.le_of_lt h)]
  exact List.flatMap_congr (fun i hi => by
    rw [if_pos (by have := List.mem_range.mp hi; omega)])

theorem procCount_whoFlatMap (n : Nat) : ∀ l : List Nat,
    procCount (l.flatMap (fun i => SeqEv.proc i :: (if i < n - 1 then [SeqEv.slp] else [])))
      = l.length := by
  intro l
  induction l with
  | nil => rfl
  | cons x xs ih =>
    rw [List.flatMap_cons]
    simp only [procCount, List.filter_append, List.length_append] at ih ⊢
    rw [ih]
    by_cases hx : x < n - 1 <;> simp [hx, isProcEv, List.filter] <;> omega

/-! ## Claim C4 -/

/-- Claim C4, counterexample: a run of the EMA sequencer on a single
candidate sleeps once after processing it — the EMA loop
(`ema_scraper.py:71`) sleeps unconditionally after every item, including
the last processed one. -/
theorem ema_sleeps_after_last_item :
    emaTrace 1 = [SeqEv.proc 0, SeqEv.slp]
    ∧ (emaTrace 1).getLast? = some SeqEv.slp := by
  exact ⟨by decide, by decide⟩

/-- Claim C4, amended: every run keeps exactly one sleep between
consecutive processed items, so elapsed time is at least
`(N−1) × inter_request_delay`; however the EMA sequencer also sleeps
after the last processed item (one sleep per item, trace ends in a
sleep), and the WHO sequencer omits the trailing sleep only when the
candidate list is not truncated by the per-run cap — its guard compares
the index against the full list length, so a truncated run also ends in a
sleep. -/
theorem sequencer_sleep_discipline :
    (∀ n, sleepCount (emaTrace n) = min n MAX_ARTICLES_TO_PROCESS)
    ∧ (∀ n, 1 ≤ n → (emaTrace n).getLast? = some SeqEv.slp)
    ∧ (∀ n, 1 ≤ n → n ≤ MAX_ARTICLES_TO_PROCESS →
        sleepCount (whoTrace n) = n - 1
        ∧ (whoTrace n).getLast? = some (SeqEv.proc (n - 1)))
    ∧ (∀ n, MAX_ARTICLES_TO_PROCESS < n →
        sleepCount (whoTrace n) = MAX_ARTICLES_TO_PROCESS
        ∧ (whoTrace n).getLast? = some SeqEv.slp) := by
  refine ⟨?_, ?_, ?_, ?_⟩
  · intro n
    unfold emaTrace
    rw [sleepCount_pairFlatMap, List.length_range]
  · intro n hn
    unfold emaTrace
    apply pairFlatMap_getLast?
    rw [Ne, List.range_eq_nil]
    have : 0 < MAX_ARTICLES_TO_PROCESS := by decide
    omega
  · intro n h1 h2
    rw [whoTrace_eq_of_le h1 h2]
    constructor
    · rw [sleepCount_append, sleepCount_pairFlatMap, List.length_range]
      rfl
    · exact List.getLast?_concat _
  · intro n h
    rw [whoTrace_eq_of_gt h]
    constructor
    · rw [sleepCount_pairFlatMap, List.length_range]
    · apply pairFlatMap_getLast?
      rw [Ne, List.range_eq_nil]
      decide

/-- Witness for `sequencer_sleep_discipline` at concrete run sizes: two
EMA items, three WHO items (below the cap), and twenty-one WHO items
(truncated by the cap). -/
theorem sequencer_sleep_discipline_witness :
    (emaTrace 2).getLast? = some SeqEv.slp
    ∧ (sleepCount (whoTrace 3) = 2 ∧ (whoTrace 3).getLast? = some (SeqEv.proc 2))
    ∧ (sleepCount (whoTrace 21) = 20 ∧ (whoTrace 21).getLast? = some SeqEv.slp) :=
  ⟨sequencer_sleep_discipline.2.1 2 (by decide),
   sequencer_sleep_discipline.2.2.1 3 (by decide) (by decide),
   sequencer_sleep_discipline.2.2.2 21 (by decide)⟩

/-! ## Claim C5 -/

/-- A table-data list with 21 identical valid entries. -/
def fdaTable21 : List (String × Option Int) := List.replicate 21 ("u", some 600)

/-- A fetch environment in which every FDA detail page succeeds. -/
def fdaFetchOk : String → Option FdaPage := fun _ =>
  some { titleSel := [some "FDA guidance on software"], dateResult := some 500,
         contentSel := [], allParagraphs := [] }

/-- Claim C5, counterexample: the FDA table-data path of
`scrape_fda_guidance` iterates over every `(url, date)` pair the table
produced with no `MAX_ARTICLES_TO_PROCESS` cap — 21 valid table rows
yield 21 processed and emitted documents, exceeding the fixed maximum of
20. -/
theorem fda_table_path_uncapped :
    (fdaScrapeGuidance (fun _ => "") 1000 fdaFetchOk fdaTable21 [] 7).length = 21
    ∧ MAX_ARTICLES_TO_PROCESS < 21 := by
  exact ⟨by decide, by decide⟩

/-- Claim C5, amended: the EMA and WHO sequencers process at most
`MAX_ARTICLES_TO_PROCESS` items per run, the EMA, WHO and PMDA pipelines
emit at most that many Records, and the FDA *fallback* path (taken when
the table yields nothing) is capped as well — but the FDA table-data path
is not capped (see the counterexample). -/
theorem per_run_item_cap :
    (∀ n, procCount (emaTrace n) ≤ MAX_ARTICLES_TO_PROCESS)
    ∧ (∀ n, procCount (whoTrace n) ≤ MAX_ARTICLES_TO_PROCESS)
    ∧ (∀ iso P now fetch newsUrls daysBack,
        (emaGetNewsArticles iso P now fetch newsUrls daysBack).length
          ≤ MAX_ARTICLES_TO_PROCESS)
    ∧ (∀ iso strp du now fetch items daysBack,
        (whoScrapeWhoNews iso strp du now fetch items daysBack).length
          ≤ MAX_ARTICLES_TO_PROCESS)
    ∧ (∀ iso du now fetch items daysBack,
        (pmdaScrapeNews iso du now fetch items daysBack).length
          ≤ MAX_ARTICLES_TO_PROCESS)
    ∧ (∀ iso now fetch guidanceUrls daysBack,
        (fdaScrapeGuidance iso now fetch [] guidanceUrls daysBack).length
          ≤ MAX_ARTICLES_TO_PROCESS) := by
  refine ⟨?_, ?_, ?_, ?_, ?_, ?_⟩
  · intro n
    unfold emaTrace
    rw [procCount_pairFlatMap, List.length_range]
    exact Nat.min_le_right _ _
  · intro n
    unfold whoTrace
    rw [procCount_whoFlatMap, List.length_range]
    exact Nat.min_le_right _ _
  · intro iso P now fetch newsUrls daysBack
    unfold emaGetNewsArticles
    calc (List.filterMap _ _).length ≤ (newsUrls.take MAX_ARTICLES_TO_PROCESS).length :=
          List.length_filterMap_le _ _
      _ ≤ MAX_ARTICLES_TO_PROCESS := List.length_take_le _ _
  · intro iso strp du now fetch items daysBack
    unfold whoScrapeWhoNews
    split
    · simp
    · calc (List.filterMap _ _).length ≤ (items.take MAX_ARTICLES_TO_PROCESS).length :=
            List.length_filterMap_le _ _
        _ ≤ MAX_ARTICLES_TO_PROCESS := List.length_take_le _ _
  · intro iso du now fetch items daysBack
    unfold pmdaScrapeNews
    split
    · simp
    · calc (List.filterMap _ _).length ≤ (items.take MAX_ARTICLES_TO_PROCESS).length :=
            List.length_filterMap_le _ _
        _ ≤ MAX_ARTICLES_TO_PROCESS := List.length_take_le _ _
  · intro iso now fetch guidanceUrls daysBack
    unfold fdaScrapeGuidance
    simp only [List.filterMap_nil, List.isEmpty_nil, if_true]
    calc (List.filterMap _ _).length ≤ (guidanceUrls.take MAX_ARTICLES_TO_PROCESS).length :=
          List.length_filterMap_le _ _
      _ ≤ MAX_ARTICLES_TO_PROCESS := List.length_take_le _ _

/-! ## Locator lemmas -/

/-- `List.filterMap_cons_some` with the mapped value explicit. -/
theorem filterMapConsSome {α β : Type} (f : α → Option β) (a : α) (l : List α) (b : β)
    (h : f a = some b) : List.filterMap f (a :: l) = b :: List.filterMap f l :=
  List.filterMap_cons_some h

/-- Behaviour of the locator's dedup-append fold: the fold only appends,
the appended part is a subsequence of the (unjoined) candidate URL list,
membership is the union of accumulator and candidates, and the fold
preserves `Nodup`. -/
theorem emaFoldl_spec (join : String → String) :
    ∀ (l : List (Option String)) (acc : List String),
      ∃ s, l.foldl (emaDedupStep join) acc = acc ++ s
        ∧ List.Sublist s (l.filterMap (fun oh => oh.bind (fun h =>
            if h ≠ "" ∧ strContains h "/en/news/" then some (join h) else none)))
        ∧ (∀ u, u ∈ l.foldl (emaDedupStep join) acc ↔
            u ∈ acc ∨ u ∈ l.filterMap (fun oh => oh.bind (fun h =>
              if h ≠ "" ∧ strContains h "/en/news/" then some (join h) else none)))
        ∧ (acc.Nodup → (l.foldl (emaDedupStep join) acc).Nodup) := by
  intro l
  induction l with
  | nil =>
    intro acc
    exact ⟨[], by simp, by simp, by simp, fun h => h⟩
  | cons oh t ih =>
    intro acc
    rw [List.foldl_cons]
    match oh with
    | none =>
      obtain ⟨s, heq, hsub, hmem, hnd⟩ := ih acc
      refine ⟨s, ?_, ?_, ?_, ?_⟩
      · simpa [emaDedupStep] using heq
      · simpa [List.filterMap_cons] using hsub
      · intro u
        simpa [emaDedupStep, List.filterMap_cons] using hmem u
      · intro h
        simpa [emaDedupStep] using hnd h
    | some h =>
      by_cases hc : h ≠ "" ∧ strContains h "/en/news/"
      · by_cases hmemacc : join h ∈ acc
        · have hstep : emaDedupStep join acc (some h) = acc := by
            simp [emaDedupStep, hc, hmemacc]
          rw [hstep]
          obtain ⟨s, heq, hsub, hmem, hnd⟩ := ih acc
          refine ⟨s, heq, ?_, ?_, hnd⟩
          · rw [filterMapConsSome _ _ _ (join h) (by simp [hc])]
            exact hsub.cons _
          · intro u
            rw [filterMapConsSome _ _ _ (join h) (by simp [hc])]
            rw [hmem u]
            constructor
            · intro hu
              rcases hu with hu | hu
              · exact Or.inl hu
              · exact Or.inr (List.mem_cons_of_mem _ hu)
            · intro hu
              rcases hu with hu | hu
              · exact Or.inl hu
              · rcases List.mem_cons.mp hu with hu | hu
                · exact Or.inl (hu ▸ hmemacc)
                · exact Or.inr hu
        · have hstep : emaDedupStep join acc (some h) = acc ++ [join h] := by
            simp [emaDedupStep, hc, hmemacc]
          rw [hstep]
          obtain ⟨s, heq, hsub, hmem, hnd⟩ := ih (acc ++ [join h])
          refine ⟨join h :: s, ?_, ?_, ?_, ?_⟩
          · rw [heq, List.append_assoc]
            rfl
          · rw [filterMapConsSome _ _ _ (join h) (by simp [hc])]
            exact List.cons_sublist_cons.mpr hsub
          · intro u
            rw [filterMapConsSome _ _ _ (join h) (by simp [hc])]
            rw [hmem u]
            simp only [List.mem_append, List.mem_singleton, List.mem_cons]
            tauto
          · intro hndacc
            apply hnd
            simp [List.nodup_append, hndacc, hmemacc]
      · have hstep : emaDedupStep join acc (some h) = acc := by
          simp only [emaDedupStep]
          rw [if_neg hc]
        rw [hstep]
        obtain ⟨s, heq, hsub, hmem, hnd⟩ := ih acc
        refine ⟨s, heq, ?_, ?_, hnd⟩
        · rw [List.filterMap_cons_none (by simp [hc])]
          exact hsub
        · intro u
          rw [List.filterMap_cons_none (by simp [hc])]
          exact hmem u

/-- The strategy loop of `_get_news_urls` selects the first non-empty
`select` result. -/
theorem emaCandidateCards_first {cs : List EmaCard} {anchors : List String} :
    ∀ {pre rest : List (List EmaCard)}, (∀ l ∈ pre, l = []) → cs ≠ [] →
      emaCandidateCards ⟨pre ++ cs :: rest, anchors⟩ = cs.map EmaCard.href := by
  intro pre
  induction pre with
  | nil =>
    intro rest _ hcs
    unfold emaCandidateCards
    rw [List.nil_append, List.find?_cons_of_pos _ (by simpa [List.isEmpty_iff] using hcs)]
  | cons e pre' ih =>
    intro rest hpre hcs
    have he : e = [] := hpre e (List.mem_cons_self e pre')
    subst he
    unfold emaCandidateCards
    rw [List.cons_append, List.find?_cons_of_neg _ (by simp)]
    exact ih (fun l hl => hpre l (List.mem_cons_of_mem _ hl)) hcs

/-! ## Claim C7 -/

/-- Claim C7: the EMA candidate locator (i) uses only the first locator
strategy whose `select` result is non-empty — the output is independent
of the later strategies' results and the generic anchors; (ii) when every
strategy matches nothing, it scans all anchors and keeps exactly those
containing the `/en/news/` inclusion pattern; (iii) its output is
deduplicated (`Nodup`), a subsequence of the absolute candidate URLs in
original document order, and contains exactly the candidate URLs; and
(iv) on a listing of five anchors of which two are off-pattern and three
match, it returns exactly the three matching URLs in document order. -/
theorem locator_strategy_and_dedup :
    (∀ (join : String → String) pre cs rest anchors anchors',
        (∀ l ∈ pre, l = []) → cs ≠ [] →
        emaGetNewsUrls join ⟨pre ++ cs :: rest, anchors⟩
          = emaGetNewsUrls join ⟨[cs], anchors'⟩)
    ∧ (∀ (sres : List (List EmaCard)) anchors, (∀ l ∈ sres, l = []) →
        emaCandidateCards ⟨sres, anchors⟩
          = (anchors.filter (fun h => strContains h "/en/news/")).map some)
    ∧ (∀ (join : String → String) doc, (emaGetNewsUrls join doc).Nodup
        ∧ List.Sublist (emaGetNewsUrls join doc) (emaJoinedCandidates join doc)
        ∧ (∀ u, u ∈ emaGetNewsUrls join doc ↔ u ∈ emaJoinedCandidates join doc))
    ∧ (emaGetNewsUrls (fun h => "https://www.ema.europa.eu" ++ h)
          ⟨[[], [], [], []],
           ["/a", "/en/news/one", "/en/news/two", "/b", "/en/news/three"]⟩
        = ["https://www.ema.europa.eu/en/news/one", "https://www.ema.europa.eu/en/news/two",
           "https://www.ema.europa.eu/en/news/three"]) := by
  refine ⟨?_, ?_, ?_, by decide⟩
  · intro join pre cs rest anchors anchors' hpre hcs
    unfold emaGetNewsUrls
    rw [emaCandidateCards_first hpre hcs]
    have h2 : emaCandidateCards ⟨[cs], anchors'⟩ = cs.map EmaCard.href := by
      have := @emaCandidateCards_first cs anchors' [] []
        (fun l hl => absurd hl (List.not_mem_nil l)) hcs
      simpa using this
    rw [h2]
  · intro sres anchors hall
    unfold emaCandidateCards
    rw [List.find?_eq_none.mpr ?_]
    · intro x hx
      have : x = [] := hall x hx
      subst this
      simp
  · intro join doc
    obtain ⟨s, heq, hsub, hmem, hnd⟩ := emaFoldl_spec join (emaCandidateCards doc) []
    have hout : emaGetNewsUrls join doc
        = (emaCandidateCards doc).foldl (emaDedupStep join) [] := rfl
    refine ⟨?_, ?_, ?_⟩
    · rw [hout]
      exact hnd List.nodup_nil
    · rw [hout, heq, List.nil_append]
      exact hsub
    · intro u
      rw [hout]
      have := hmem u
      simpa [emaJoinedCandidates] using this

/-- Witness for `locator_strategy_and_dedup`: the first-strategy rule at
a listing whose first strategy is empty and second is not, and the
generic-anchor fallback at a listing with no strategy matches. -/
theorem locator_strategy_and_dedup_witness :
    emaGetNewsUrls (fun h => h)
        ⟨[[], [{ href := some "/en/news/a" }], [{ href := some "/en/news/zz" }]],
         ["/en/news/w"]⟩
      = emaGetNewsUrls (fun h => h) ⟨[[{ href := some "/en/news/a" }]], []⟩
    ∧ emaCandidateCards ⟨[[], []], ["/en/news/w", "/x"]⟩
      = (["/en/news/w", "/x"].filter (fun h => strContains h "/en/news/")).map some :=
  ⟨locator_strategy_and_dedup.1 (fun h => h) [[]] [{ href := some "/en/news/a" }]
      [[{ href := some "/en/news/zz" }]] ["/en/news/w"] [] (by decide) (by decide),
   locator_strategy_and_dedup.2.1 [[], []] ["/en/news/w", "/x"] (by decide)⟩

/-! ## Claim C8 -/

/-- Claim C8: in the FDA pipeline, a table entry whose listing date
parsed successfully and passes the cutoff emits the detail-page record
with its `published_at` and `published_at_iso` overridden by the table
date; a table entry whose listing date failed to parse (stored as `None`)
falls back to the detail page's extracted date for the cutoff test and
emits the record with that detail date. -/
theorem fda_table_date_override :
    (∀ iso now fetch tableData guidanceUrls daysBack url td doc,
        (url, some td) ∈ tableData →
        isWithinDateRange td (cutoffDate now daysBack) = true →
        fdaScrapeDocument iso now fetch url = some doc →
        { doc with published_at := td, published_at_iso := iso td }
          ∈ fdaScrapeGuidance iso now fetch tableData guidanceUrls daysBack)
    ∧ (∀ iso now fetch tableData guidanceUrls daysBack url doc,
        (url, none) ∈ tableData →
        fdaScrapeDocument iso now fetch url = some doc →
        isWithinDateRange doc.published_at (cutoffDate now daysBack) = true →
        doc ∈ fdaScrapeGuidance iso now fetch tableData guidanceUrls daysBack) := by
  constructor
  · intro iso now fetch tableData guidanceUrls daysBack url td doc htd hin hdoc
    have hentry : fdaProcessTableEntry iso now fetch (cutoffDate now daysBack) (url, some td)
        = some { doc with published_at := td, published_at_iso := iso td } := by
      simp only [fdaProcessTableEntry]
      rw [if_pos hin, hdoc]
    have hmem : { doc with published_at := td, published_at_iso := iso td }
        ∈ tableData.filterMap (fdaProcessTableEntry iso now fetch (cutoffDate now daysBack)) :=
      List.mem_filterMap.mpr ⟨(url, some td), htd, hentry⟩
    simp only [fdaScrapeGuidance]
    rw [if_neg ?_]
    · exact hmem
    · rw [List.isEmpty_iff]
      exact List.ne_nil_of_mem hmem
  · intro iso now fetch tableData guidanceUrls daysBack url doc htd hdoc hin
    have hentry : fdaProcessTableEntry iso now fetch (cutoffDate now daysBack) (url, none)
        = some doc := by
      simp only [fdaProcessTableEntry]
      rw [hdoc]
      simp only [hin, if_true]
    have hmem : doc
        ∈ tableData.filterMap (fdaProcessTableEntry iso now fetch (cutoffDate now daysBack)) :=
      List.mem_filterMap.mpr ⟨(url, none), htd, hentry⟩
    simp only [fdaScrapeGuidance]
    rw [if_neg ?_]
    · exact hmem
    · rw [List.isEmpty_iff]
      exact List.ne_nil_of_mem hmem

/-- The FDA detail record extracted from `fdaFetchOk`'s page. -/
def fdaDoc0 : FdaDoc :=
  { title := "FDA guidance on software", url := "u", published_at := 500,
    published_at_iso := "", summary_or_lead := "Content not available",
    first_paragraphs := "Content not available" }

/-- Witness for `fda_table_date_override`: a single table entry with
table date 600 emits the record with `published_at = 600`, overriding the
detail page's 500. -/
theorem fda_table_date_override_witness :
    { fdaDoc0 with published_at := 600, published_at_iso := "" }
      ∈ fdaScrapeGuidance (fun _ => "") 1000 fdaFetchOk [("u", some 600)] [] 7 :=
  fda_table_date_override.1 (fun _ => "") 1000 fdaFetchOk [("u", some 600)] [] 7 "u" 600
    fdaDoc0 (by decide) (by decide) (by decide)

/-! ## Claim C9 -/

/-- A ten-character paragraph. -/
def para10 : String := "ten chars."

/-- An eighty-character paragraph. -/
def para80 : String :=
  "This paragraph holds exactly eighty characters, to exercise the length filtering"

/-- A content block containing one 10-character and one 80-character
paragraph, matched by the first content selector. -/
def contentScenarioPage : EmaPage :=
  { titleSel := [], titleTag := none, dateSel := [],
    contentSel := [[para10, para80]], allParagraphs := [], relatedDocs := [] }

/-- Claim C9: every paragraph kept by the EMA content extractor exceeds
the 50-character threshold; the kept paragraphs are joined with a blank
line; when nothing qualifies the sentinel string is emitted instead of a
failure; and on a block with a 10-character and an 80-character
paragraph, only the 80-character one appears. -/
theorem content_paragraph_policy :
    (∀ page p, p ∈ emaContentParas page → 50 < p.length)
    ∧ (∀ page, emaContentParas page ≠ [] →
        emaExtractContent page = String.intercalate "\n\n" (emaContentParas page))
    ∧ (∀ page, emaContentParas page = [] →
        emaExtractContent page = "Content not available")
    ∧ para10.length = 10 ∧ para80.length = 80
    ∧ emaExtractContent contentScenarioPage = para80 := by
  refine ⟨?_, ?_, ?_, by decide, by decide, by decide⟩
  · intro page p hp
    cases hfind : page.contentSel.find? (fun l => !l.isEmpty) with
    | none =>
      simp only [emaContentParas, hfind, List.isEmpty_nil, if_true] at hp
      exact (of_decide_eq_true (List.mem_filter.mp hp).2).2
    | some els =>
      simp only [emaContentParas, hfind] at hp
      split at hp
      · exact (of_decide_eq_true (List.mem_filter.mp hp).2).2
      · exact (of_decide_eq_true (List.mem_filter.mp hp).2).2
  · intro page hne
    simp only [emaExtractContent]
    rw [if_neg (by rw [List.isEmpty_iff]; exact hne)]
  · intro page hnil
    simp only [emaExtractContent]
    rw [if_pos (by rw [List.isEmpty_iff]; exact hnil)]

/-- Witness for `content_paragraph_policy`: the scenario page's kept
paragraph passes the threshold, its output is the blank-line join of its
kept paragraphs, and a page with no qualifying paragraph emits the
sentinel. -/
theorem content_paragraph_policy_witness :
    50 < para80.length
    ∧ emaExtractContent contentScenarioPage
        = String.intercalate "\n\n" (emaContentParas contentScenarioPage)
    ∧ emaExtractContent emaPlainPage = "Content not available" :=
  ⟨content_paragraph_policy.1 contentScenarioPage para80 (by decide),
   content_paragraph_policy.2.1 contentScenarioPage (by decide),
   content_paragraph_policy.2.2.1 emaPlainPage (by decide)⟩

/-! ## Claim C10 -/

/-- A fourteen-character PMDA listing title. -/
def pmdaTitle0 : String := "新着情報のお知らせ一覧ページ"

/-- A `ul.list__news` item carrying the category `採用`. -/
def pmdaLi0 : PmdaLi :=
  { dateText := some "2025年10月7日", category := some "採用",
    titleText := some pmdaTitle0, links := ["/news1.html"], hasDatePattern := true }

/-- A PMDA listing whose only item is `pmdaLi0` (so the generic fallback
query sees the same `li`). -/
def pmdaDoc0 : PmdaListing := { newsLists := [[pmdaLi0]], allListItems := [pmdaLi0] }

/-- A PMDA detail page with a legitimate title. -/
def pmdaDetailPage0 : DetailPage :=
  { titleSel := [some "PMDAからのお知らせの詳細"], summaryText := "s", contentText := "c" }

/-- Claim C10, counterexample: the category filter lives only in the
primary `ul.list__news` discovery path.  On a listing whose only item has
category `採用`, the primary path indeed discovers nothing — but
precisely because it discovered nothing, the generic-list fallback
rescans the same `li` without any category check and re-emits its URL
(with category relabelled `その他`), so the excluded item's URL does
appear among the emitted Records. -/
theorem pmda_fallback_resurrects_excluded_category :
    pmdaLi0.category = some "採用"
    ∧ pmdaPrimaryItems (fun h => "https://www.pmda.go.jp" ++ h) pmdaDoc0 = []
    ∧ (pmdaScrapeNews (fun _ => "") (fun _ => none) 1000 (fun _ => some pmdaDetailPage0)
          (pmdaGetNewsUrls (fun h => "https://www.pmda.go.jp" ++ h) pmdaDoc0) 7).map
        PmdaArticle.url
      = ["https://www.pmda.go.jp/news1.html"] := by
  exact ⟨by decide, by decide, by decide⟩

/-- Claim C10, amended: items whose category text is exactly `採用` or
`調達` are excluded by the primary `ul.list__news` discovery path, and no
discovered candidate — hence no emitted Record — ever carries those
category labels; however, when the primary path yields no items at all,
the generic-list fallback may rediscover such an item's URL with its
category relabelled `その他` (see the counterexample). -/
theorem pmda_category_exclusion :
    (∀ join doc it, it ∈ pmdaPrimaryItems join doc →
        it.category ≠ "採用" ∧ it.category ≠ "調達")
    ∧ (∀ join doc it, it ∈ pmdaGetNewsUrls join doc →
        it.category ≠ "採用" ∧ it.category ≠ "調達") := by
  have hprim : ∀ (join : String → String) doc it, it ∈ pmdaPrimaryItems join doc →
      it.category ≠ "採用" ∧ it.category ≠ "調達" := by
    intro join doc it hit
    simp only [pmdaPrimaryItems, List.mem_flatMap, List.mem_filterMap] at hit
    obtain ⟨lis, -, li, -, hf⟩ := hit
    cases hdt : li.dateText with
    | none => simp [hdt] at hf
    | some dt =>
      simp only [hdt] at hf
      split at hf
      · simp at hf
      case isFalse hcat =>
        cases hl : li.links.head? with
        | none => simp [hl] at hf
        | some href =>
          simp only [hl] at hf
          split at hf
          · have : it.category = li.category.getD "" := by
              cases hf
              rfl
            rw [this]
            push_neg at hcat
            exact hcat
          · simp at hf
  refine ⟨hprim, ?_⟩
  intro join doc it hit
  simp only [pmdaGetNewsUrls] at hit
  split at hit
  · simp only [pmdaFallbackItems, List.mem_flatMap] at hit
    obtain ⟨li, -, hmem⟩ := hit
    split at hmem
    · rw [List.mem_filterMap] at hmem
      obtain ⟨href, -, hf⟩ := hmem
      split at hf
      · have : it.category = "その他" := by
          cases hf
          rfl
        rw [this]
        exact ⟨by decide, by decide⟩
      · simp at hf
    · simp at hmem
  · exact hprim join doc it hit

/-- The candidate the PMDA fallback produces for `pmdaDoc0`. -/
def pmdaItem0 : PmdaItem :=
  { url := "https://www.pmda.go.jp/news1.html", date_text := "日付不明",
    category := "その他", title := pmdaTitle0 }

/-- Witness for `pmda_category_exclusion`: the concrete candidate
discovered from `pmdaDoc0` carries neither excluded category label. -/
theorem pmda_category_exclusion_witness :
    pmdaItem0.category ≠ "採用" ∧ pmdaItem0.category ≠ "調達" :=
  pmda_category_exclusion.2 (fun h => "https://www.pmda.go.jp" ++ h) pmdaDoc0 pmdaItem0
    (by decide)
